import Mathlib

/-!
# Verification of the Remove-Background classical pixel pipelines

A shallow embedding of the two dependency-free pixel-processing algorithms of
the repository, together with proofs of the specification's testable claims.

* `src/backends/gemini_watermark.py` — reverse alpha-blend watermark removal
  (`_remove_watermark`, `_detect_watermark_config`,
  `_calculate_watermark_position`, `GeminiWatermarkBackend.process`).
* `src/backends/greenscreen.py` and `src/postprocess/green_screen.py` — the
  green-screen chroma-key / despill pipeline
  (`GreenScreenProcessor.apply_chroma_key`, `despill_green`,
  `GreenScreenBackend._apply_despill`, `_merge_alpha_channels`, `process`).
* `src/core/interfaces.py` — `BaseBackend.__init__` strength clamping.

Modelling conventions: 8-bit channel values are `ℕ` (intended range `[0,255]`),
Python / numpy floating-point arithmetic is modelled over `ℚ`, Python's
`round` (round half to even) is `pyRound`, and numpy's
`clip(·,0,255).astype(uint8)` is `clipFloor`.  The external OpenCV primitives
used by the pipeline (`cvtColor` to HSV, `inRange`, morphology with elliptical
structuring elements, `GaussianBlur` with the fixed 7-tap kernel that
`ksize = 7, sigma = 0` selects) are modelled at real-arithmetic precision from
their documented semantics; border handling for the morphological operators
uses coordinate clamping, which agrees with OpenCV's default border for
erosion and dilation, and `GaussianBlur` uses reflect-101 indexing.
-/

/-- Python's built-in `round`: round half to even, as applied by
`_remove_watermark` before clamping a blended channel value. -/
def pyRound (q : ℚ) : ℤ :=
  let n := ⌊q⌋
  let frac := q - n
  if frac < 1 / 2 then n
  else if 1 / 2 < frac then n + 1
  else if n % 2 = 0 then n else n + 1

/-- `max(0, min(255, z))` from `_remove_watermark`, landing in a byte. -/
def clampByte (z : ℤ) : ℕ := (max 0 (min 255 z)).toNat

/-- numpy `np.clip(q, 0, 255)` followed by `astype(np.uint8)` (truncation),
as used by the despill code. -/
def clipFloor (q : ℚ) : ℕ := (⌊min 255 (max 0 q)⌋).toNat

/-! ## Watermark removal (`src/backends/gemini_watermark.py`) -/

/-- `ALPHA_THRESHOLD = 0.002` — alpha-map values below this are skipped. -/
def ALPHA_THRESHOLD : ℚ := 2 / 1000

/-- `MAX_ALPHA = 0.99` — alpha-map values are clamped to at most this. -/
def MAX_ALPHA : ℚ := 99 / 100

/-- `LOGO_VALUE = 255` — white watermark reference value. -/
def LOGO_VALUE : ℚ := 255

/-- A pixel as `_remove_watermark` sees it: three colour channels, and an
alpha channel present exactly when the image mode is RGBA. -/
structure Pixel where
  r : ℕ
  g : ℕ
  b : ℕ
  a : Option ℕ
deriving DecidableEq

/-- The per-channel body of `_remove_watermark`'s inner loop: inverse alpha
blend, blending between watermarked and recovered values by `strength`, then
rounding and clamping to `[0,255]`.  The alpha channel of an RGBA pixel is
restored by the same formula. -/
def removeChannel (wmAlpha strength : ℚ) (c : ℕ) : ℕ :=
  clampByte (pyRound
    ((c : ℚ) * (1 - strength) + ((c : ℚ) - wmAlpha * LOGO_VALUE) / (1 - wmAlpha) * strength))

/-- One iteration of `_remove_watermark`'s pixel loop: skip the pixel when its
alpha-map value is below `ALPHA_THRESHOLD`, otherwise clamp the alpha to
`MAX_ALPHA` and rewrite every channel (including the alpha channel of an RGBA
pixel) with `removeChannel`. -/
def removePixel (wmAlpha strength : ℚ) (px : Pixel) : Pixel :=
  if wmAlpha < ALPHA_THRESHOLD then px
  else
    ⟨removeChannel (min wmAlpha MAX_ALPHA) strength px.r,
      removeChannel (min wmAlpha MAX_ALPHA) strength px.g,
      removeChannel (min wmAlpha MAX_ALPHA) strength px.b,
      px.a.map fun v => removeChannel (min wmAlpha MAX_ALPHA) strength v⟩

/-- An image as the watermark backend uses it: dimensions plus pixel access.
`_remove_watermark` only ever reads and writes the pixel it is visiting, so
its in-place mutation is the pointwise update below. -/
structure WImage where
  width : ℤ
  height : ℤ
  pix : ℤ → ℤ → Pixel

/-- The alpha-map index `row * size + col` computed by `_remove_watermark`
for the pixel at absolute coordinates `(px, py)` of the square anchored at
`(x, y)`. -/
def wmIdx (x y size px py : ℤ) : ℕ := ((py - y) * size + (px - x)).toNat

/-- `_remove_watermark`: every pixel of the `size × size` square anchored at
`(x, y)` is replaced by `removePixel` at its alpha-map entry; all other
pixels are untouched. -/
def removeWatermark (alphaMap : ℕ → ℚ) (x y size : ℤ) (strength : ℚ)
    (img : WImage) : WImage :=
  { img with
    pix := fun px py =>
      if x ≤ px ∧ px < x + size ∧ y ≤ py ∧ py < y + size then
        removePixel (alphaMap (wmIdx x y size px py)) strength (img.pix px py)
      else img.pix px py }

/-- `WatermarkConfig` from `gemini_watermark.py`. -/
structure WatermarkConfig where
  logo_size : ℤ
  margin_right : ℤ
  margin_bottom : ℤ
deriving DecidableEq

/-- `_detect_watermark_config`: 96px geometry when both dimensions exceed
`WATERMARK_SIZE_THRESHOLD = 1024`, else 48px geometry. -/
def detectWatermarkConfig (width height : ℤ) : WatermarkConfig :=
  if 1024 < width ∧ 1024 < height then ⟨96, 64, 64⟩ else ⟨48, 32, 32⟩

/-- `_calculate_watermark_position`: bottom-right anchored. -/
def calculateWatermarkPosition (imageWidth imageHeight : ℤ)
    (config : WatermarkConfig) : ℤ × ℤ :=
  (imageWidth - config.margin_right - config.logo_size,
   imageHeight - config.margin_bottom - config.logo_size)

/-- The three detection modes accepted by `GeminiWatermarkBackend.__init__`. -/
inductive GeminiMode
  | auto
  | px48
  | px96
deriving DecidableEq

/-- The watermark configuration `GeminiWatermarkBackend.process` selects for a
mode and image size. -/
def geminiConfig (mode : GeminiMode) (width height : ℤ) : WatermarkConfig :=
  match mode with
  | .px48 => ⟨48, 32, 32⟩
  | .px96 => ⟨96, 64, 64⟩
  | .auto => detectWatermarkConfig width height

/-- `min_size = logo_size + max(margin_right, margin_bottom)` from
`GeminiWatermarkBackend.process`. -/
def minProcessSize (cfg : WatermarkConfig) : ℤ :=
  cfg.logo_size + max cfg.margin_right cfg.margin_bottom

/-- `GeminiWatermarkBackend.process` restricted to its pixel-level content:
select the geometry, pass the image through unchanged (successfully) when it
is too small, otherwise remove the watermark at the computed bottom-right
position.  The boolean is the method's success return value; the alpha map is
a parameter because its values come from bundled reference assets. -/
def geminiProcess (mode : GeminiMode) (strength : ℚ) (alphaMap : ℕ → ℚ)
    (img : WImage) : Bool × WImage :=
  if img.width < minProcessSize (geminiConfig mode img.width img.height) ∨
      img.height < minProcessSize (geminiConfig mode img.width img.height) then
    (true, img)
  else
    (true,
      removeWatermark alphaMap
        (calculateWatermarkPosition img.width img.height
          (geminiConfig mode img.width img.height)).1
        (calculateWatermarkPosition img.width img.height
          (geminiConfig mode img.width img.height)).2
        (geminiConfig mode img.width img.height).logo_size strength img)

/-- `BaseBackend.__init__` (`src/core/interfaces.py`):
`self.strength = max(0.1, min(1.0, strength))`. -/
def baseStrength (s : ℚ) : ℚ := max (1 / 10) (min 1 s)

/-- `GeminiWatermarkBackend` as constructed with strength parameter `s`:
`__init__` stores the clamped `baseStrength s`, and `process` applies that
stored strength. -/
def geminiProcessB (mode : GeminiMode) (s : ℚ) (alphaMap : ℕ → ℚ)
    (img : WImage) : Bool × WImage :=
  geminiProcess mode (baseStrength s) alphaMap img

/-- The specification's recovered-channel expression:
`(watermarked − wm_alpha·255)/(1 − wm_alpha)` rounded and clamped to
`[0,255]`. -/
def specRecoveredChannel (wmAlpha : ℚ) (c : ℕ) : ℕ :=
  clampByte (pyRound (((c : ℚ) - wmAlpha * 255) / (1 - wmAlpha)))

/-! ## Green-screen pipeline (`src/postprocess/green_screen.py`,
`src/backends/greenscreen.py`) -/

/-- An 8-bit RGB pixel as stored in the numpy arrays of the green-screen
pipeline (channel order follows meaning, not memory layout; the repository's
RGB↔BGR conversions cancel out). -/
structure RGB where
  r : ℕ
  g : ℕ
  b : ℕ
deriving DecidableEq

/-- An 8-bit RGBA pixel. -/
structure RGBA where
  r : ℕ
  g : ℕ
  b : ℕ
  a : ℕ
deriving DecidableEq

/-- The all-zero RGBA pixel, used as the out-of-bounds default of `Grid.get`. -/
def rgba0 : RGBA := ⟨0, 0, 0, 0⟩

/-- A 2-D raster (numpy array) as a row-major list of rows. -/
structure Grid (α : Type) where
  data : List (List α)
deriving DecidableEq

/-- Number of rows. -/
def Grid.height (g : Grid α) : ℕ := g.data.length

/-- Number of columns (of the first row; all rows of a well-formed raster
have equal length). -/
def Grid.width (g : Grid α) : ℕ := (g.data.headD []).length

/-- Element access at row `y`, column `x` with a default. -/
def Grid.get (g : Grid α) (y x : ℕ) (d : α) : α := (g.data.getD y []).getD x d

/-- Build a grid from a pixel function. -/
def Grid.ofFn (h w : ℕ) (f : ℕ → ℕ → α) : Grid α :=
  ⟨(List.range h).map fun y => (List.range w).map fun x => f y x⟩

/-- Elementwise map (a pointwise numpy operation). -/
def Grid.mapG (f : α → β) (g : Grid α) : Grid β := ⟨g.data.map (List.map f)⟩

/-- Elementwise combination of two same-shaped grids (a binary pointwise
numpy operation). -/
def Grid.zipG (f : α → β → γ) (g₁ : Grid α) (g₂ : Grid β) : Grid γ :=
  ⟨List.zipWith (List.zipWith f) g₁.data g₂.data⟩

/-- OpenCV 8-bit BGR→HSV conversion of one pixel (documented semantics, real
arithmetic): `V = max`, `S = round(255·Δ/V)`, `H = round(30·h₆/Δ)` with the
sector term `h₆` chosen by which channel attains the maximum (red checked
first, then green), shifted by 180 when negative.  Result `(H, S, V)`. -/
def pixelHSV (p : RGB) : ℕ × ℕ × ℕ :=
  let v := max p.r (max p.g p.b)
  let mn := min p.r (min p.g p.b)
  let d := v - mn
  let s := if v = 0 then 0 else (pyRound ((255 * (d : ℚ)) / (v : ℚ))).toNat
  let h6 : ℤ :=
    if v = p.r then (p.g : ℤ) - (p.b : ℤ)
    else if v = p.g then 2 * (d : ℤ) + ((p.b : ℤ) - (p.r : ℤ))
    else 4 * (d : ℤ) + ((p.r : ℤ) - (p.g : ℤ))
  let hh := if d = 0 then 0 else pyRound ((30 * (h6 : ℚ)) / (d : ℚ))
  let h := if hh < 0 then hh + 180 else hh
  (h.toNat, s, v)

/-- `GreenScreenConfig` from `green_screen.py` (despill strength over ℚ). -/
structure GreenScreenConfig where
  hue_min : ℕ
  hue_max : ℕ
  saturation_min : ℕ
  value_min : ℕ
  despill_strength : ℚ
  edge_blur : ℕ
  erode_size : ℕ
  feather_amount : ℕ
deriving DecidableEq

/-- The `cv2.inRange` test of `create_green_mask`: hue in
`[hue_min, hue_max]`, saturation in `[saturation_min, 255]`, value in
`[value_min, 255]`. -/
def inGreenRange (cfg : GreenScreenConfig) (p : RGB) : Bool :=
  let hsv := pixelHSV p
  decide (cfg.hue_min ≤ hsv.1 ∧ hsv.1 ≤ cfg.hue_max ∧
    cfg.saturation_min ≤ hsv.2.1 ∧ hsv.2.1 ≤ 255 ∧
    cfg.value_min ≤ hsv.2.2 ∧ hsv.2.2 ≤ 255)

/-- `GreenScreenProcessor.create_green_mask`: 255 where the pixel is
classified as green, 0 elsewhere. -/
def createGreenMask (cfg : GreenScreenConfig) (img : Grid RGB) : Grid ℕ :=
  Grid.mapG (fun p => if inGreenRange cfg p then 255 else 0) img

/-- Clamp a (possibly negative) coordinate into `[0, n)` — replicated-border
access, which agrees with OpenCV's default border for erosion/dilation. -/
def clampIdx (i : ℤ) (n : ℕ) : ℕ := (max 0 (min ((n : ℤ) - 1) i)).toNat

/-- `cv2.getStructuringElement(MORPH_ELLIPSE, (5,5))` as offsets from the
centre anchor. -/
def ellipse5 : List (ℤ × ℤ) :=
  [(-2, 0),
   (-1, -2), (-1, -1), (-1, 0), (-1, 1), (-1, 2),
   (0, -2), (0, -1), (0, 0), (0, 1), (0, 2),
   (1, -2), (1, -1), (1, 0), (1, 1), (1, 2),
   (2, 0)]

/-- `cv2.getStructuringElement(MORPH_ELLIPSE, (3,3))` (a cross). -/
def ellipse3 : List (ℤ × ℤ) := [(-1, 0), (0, -1), (0, 0), (0, 1), (1, 0)]

/-- `cv2.getStructuringElement(MORPH_ELLIPSE, (2,2))` (all ones, anchor at
`(1,1)`). -/
def ellipse2 : List (ℤ × ℤ) := [(-1, -1), (-1, 0), (0, -1), (0, 0)]

/-- `cv2.dilate` with one iteration of the structuring element `K`:
neighbourhood maximum. -/
def dilateK (K : List (ℤ × ℤ)) (m : Grid ℕ) : Grid ℕ :=
  Grid.ofFn m.height m.width fun y x =>
    (K.map fun o =>
      m.get (clampIdx ((y : ℤ) + o.1) m.height) (clampIdx ((x : ℤ) + o.2) m.width) 0).foldl
      max 0

/-- `cv2.erode` with one iteration of the structuring element `K`:
neighbourhood minimum (mask values live in `[0,255]`). -/
def erodeK (K : List (ℤ × ℤ)) (m : Grid ℕ) : Grid ℕ :=
  Grid.ofFn m.height m.width fun y x =>
    (K.map fun o =>
      m.get (clampIdx ((y : ℤ) + o.1) m.height) (clampIdx ((x : ℤ) + o.2) m.width) 255).foldl
      min 255

/-- `cv2.morphologyEx(mask, MORPH_CLOSE, ellipse (5,5))`. -/
def closeEllipse5 (m : Grid ℕ) : Grid ℕ := erodeK ellipse5 (dilateK ellipse5 m)

/-- `cv2.morphologyEx(mask, MORPH_OPEN, ellipse (3,3))`. -/
def openEllipse3 (m : Grid ℕ) : Grid ℕ := dilateK ellipse3 (erodeK ellipse3 m)

/-- The erosion step of `refine_mask`, guarded by `erode_size > 0` (the
pipeline always uses `erode_size = 2`, whose elliptical element is
`ellipse2`). -/
def erodeStep (cfg : GreenScreenConfig) (m : Grid ℕ) : Grid ℕ :=
  if 0 < cfg.erode_size then erodeK ellipse2 m else m

/-- Reflect-101 border indexing used by `cv2.GaussianBlur`. -/
def reflect101 (n : ℕ) (i : ℤ) : ℕ :=
  if n ≤ 1 then 0
  else
    let p : ℤ := 2 * ((n : ℤ) - 1)
    let j := i % p
    (if j < (n : ℤ) then j else p - j).toNat

/-- The 7-tap kernel `cv2.getGaussianKernel(7, 0)` returns (OpenCV's fixed
small-kernel table), as offset/weight pairs. -/
def gauss7 : List (ℤ × ℚ) :=
  [(-3, 2 / 64), (-2, 7 / 64), (-1, 14 / 64), (0, 18 / 64),
   (1, 14 / 64), (2, 7 / 64), (3, 2 / 64)]

/-- `cv2.GaussianBlur(mask, (7,7), 0)` — the blur `refine_mask` performs for
`edge_blur = 3` (kernel size `2·edge_blur+1 = 7`): separable weighted sum
with reflect-101 borders, rounded and clamped back to a byte. -/
def gaussBlur7 (m : Grid ℕ) : Grid ℕ :=
  Grid.ofFn m.height m.width fun y x =>
    clampByte (pyRound
      (gauss7.foldl
        (fun acc dw =>
          acc + dw.2 *
            gauss7.foldl
              (fun acc2 dw2 =>
                acc2 + dw2.2 *
                  (m.get (reflect101 m.height ((y : ℤ) + dw.1))
                    (reflect101 m.width ((x : ℤ) + dw2.1)) 0 : ℚ))
              0)
        0))

/-- The Gaussian-blur step of `refine_mask`, guarded by `edge_blur > 0` (the
pipeline always uses `edge_blur = 3`, i.e. the 7×7 kernel). -/
def gaussianStep (cfg : GreenScreenConfig) (m : Grid ℕ) : Grid ℕ :=
  if 0 < cfg.edge_blur then gaussBlur7 m else m

/-- `GreenScreenProcessor.refine_mask`: close, open, conditional erode,
conditional blur — in that order. -/
def refineMask (cfg : GreenScreenConfig) (m : Grid ℕ) : Grid ℕ :=
  gaussianStep cfg (erodeStep cfg (openEllipse3 (closeEllipse5 m)))

/-- The pixel body of `GreenScreenProcessor.despill_green`: reduce the green
channel toward the red/blue average when it exceeds it (`spill_mask`), by
`despill_strength`; red and blue pass through. -/
def despillPixel (strength : ℚ) (p : RGB) : RGB :=
  ⟨p.r,
    clipFloor (if 0 < (p.g : ℚ) - ((p.r : ℚ) + (p.b : ℚ)) / 2 then
        (p.g : ℚ) - ((p.g : ℚ) - ((p.r : ℚ) + (p.b : ℚ)) / 2) * strength
      else (p.g : ℚ)),
    p.b⟩

/-- `GreenScreenProcessor.despill_green` over a whole image (the mask
argument of the source function is unused). -/
def despillGreen (strength : ℚ) (img : Grid RGB) : Grid RGB :=
  Grid.mapG (despillPixel strength) img

/-- The pixel body of `GreenScreenBackend._apply_despill`: the same green
reduction, written with `np.maximum(g − rb_avg, 0)`; alpha passes through. -/
def despillRGBAPixel (strength : ℚ) (p : RGBA) : RGBA :=
  ⟨p.r,
    clipFloor ((p.g : ℚ) - max ((p.g : ℚ) - ((p.r : ℚ) + (p.b : ℚ)) / 2) 0 * strength),
    p.b, p.a⟩

/-- `GreenScreenBackend._apply_despill`: if no pixel is visible
(`alpha > 0`), return the image unchanged; otherwise apply the green
reduction to every pixel. -/
def applyDespillB (strength : ℚ) (img : Grid RGBA) : Grid RGBA :=
  if img.data.any fun row => row.any fun p => decide (0 < p.a) then
    Grid.mapG (despillRGBAPixel strength) img
  else img

/-- Invert a background mask into foreground alpha: `alpha = 255 − mask`
(step 3 of `apply_chroma_key`; mask values stay within `[0,255]`). -/
def invertMask (m : Grid ℕ) : Grid ℕ := Grid.mapG (fun a => 255 - a) m

/-- Step 4 of `apply_chroma_key`: intersect with an existing alpha channel
(`np.minimum`) when one is given. -/
def mergeAlphaOpt (existing : Option (Grid ℕ)) (alpha : Grid ℕ) : Grid ℕ :=
  match existing with
  | none => alpha
  | some e => Grid.zipG min alpha e

/-- `GreenScreenProcessor.apply_chroma_key`: build the green mask, refine it,
invert it to alpha, optionally intersect with an existing alpha, and despill
the colour image; returns `(despilled image, alpha)`. -/
def applyChromaKeyP (cfg : GreenScreenConfig) (img : Grid RGB)
    (existing : Option (Grid ℕ)) : Grid RGB × Grid ℕ :=
  (despillGreen cfg.despill_strength img,
   mergeAlphaOpt existing (invertMask (refineMask cfg (createGreenMask cfg img))))

/-- Stack an RGB image with an alpha channel (`np.dstack`). -/
def compositeRGBA (img : Grid RGB) (alpha : Grid ℕ) : Grid RGBA :=
  Grid.zipG (fun p a => ⟨p.r, p.g, p.b, a⟩) img alpha

/-- `GreenScreenProcessor.process_image` on an RGB input (the backend always
converts to RGB first, so there is no existing alpha). -/
def processImage (cfg : GreenScreenConfig) (img : Grid RGB) : Grid RGBA :=
  compositeRGBA (applyChromaKeyP cfg img none).1 (applyChromaKeyP cfg img none).2

/-- `GreenScreenBackend._merge_alpha_channels`: alpha is the elementwise
minimum of the two alphas, RGB comes from the AI image. -/
def mergeAlphaChannels (chroma ai : Grid RGBA) : Grid RGBA :=
  Grid.zipG (fun cp ap => ⟨ap.r, ap.g, ap.b, min cp.a ap.a⟩) chroma ai

/-- The processing modes of `GreenScreenBackend`. -/
inductive GSMode
  | hybrid
  | chromaOnly
  | aiEnhanced
deriving DecidableEq

/-- The `GreenScreenConfig` built by `GreenScreenBackend.__init__` from the
raw constructor arguments: the despill strength is the *unclamped* strength
parameter; `value_min = 40` (dataclass default), `edge_blur = 3`,
`erode_size = 2`, `feather_amount = 2`. -/
def mkGSConfig (s : ℚ) (hueMin hueMax satMin : ℕ) : GreenScreenConfig :=
  ⟨hueMin, hueMax, satMin, 40, s, 3, 2, 2⟩

/-- `GreenScreenBackend.process` on a decoded RGB image.  The external AI
matte provider is a parameter returning `none` on failure (an exception in
the source); a `none` result models the method returning `False` with no
output written.  `self.strength` (used by `_apply_despill`) is the clamped
`baseStrength s`, while the chroma-key config carries the raw `s`. -/
def gsBackendProcess (mode : GSMode) (s : ℚ) (hueMin hueMax satMin : ℕ)
    (ai : Grid RGB → Option (Grid RGBA)) (img : Grid RGB) : Option (Grid RGBA) :=
  match mode with
  | .chromaOnly =>
      some (applyDespillB (baseStrength s) (processImage (mkGSConfig s hueMin hueMax satMin) img))
  | .aiEnhanced =>
      match ai img with
      | none => none
      | some aiRes =>
          some (mergeAlphaChannels (processImage (mkGSConfig s hueMin hueMax satMin) img) aiRes)
  | .hybrid =>
      match ai img with
      | none => none
      | some aiRes =>
          some (applyDespillB (baseStrength s)
            (mergeAlphaChannels (processImage (mkGSConfig s hueMin hueMax satMin) img) aiRes))

/-- Modelled from the spec: section 4.6's `chroma-only` pipeline — Segmenter,
Refiner, inversion of the mask into foreground alpha, then the Despill
Corrector (section 4.5, the pure per-pixel green correction) applied exactly
once to the masked composite, with no AI call. -/
def specChromaOnly (cfg : GreenScreenConfig) (strength : ℚ) (img : Grid RGB) : Grid RGBA :=
  Grid.mapG (despillRGBAPixel strength)
    (compositeRGBA img (invertMask (refineMask cfg (createGreenMask cfg img))))

/-! ## Concrete instances used by witnesses and counterexamples -/

/-- A pixel whose channel values are valid bytes. -/
def ValidPixel (p : Pixel) : Prop :=
  p.r ≤ 255 ∧ p.g ≤ 255 ∧ p.b ≤ 255 ∧ ∀ v ∈ p.a, v ≤ 255

/-- A 1×1 RGBA test image for the exact-inversion witness. -/
def wmWitnessImg : WImage := ⟨1, 1, fun _ _ => ⟨0, 100, 255, some 30⟩⟩

/-- A 1×1 RGB test image whose channels are all 1. -/
def wmCexImg : WImage := ⟨1, 1, fun _ _ => ⟨1, 1, 1, none⟩⟩

/-- A 50×50 image — smaller than the 48px geometry's minimum size 80. -/
def smallImg : WImage := ⟨50, 50, fun _ _ => ⟨0, 0, 0, none⟩⟩

/-- An 80×80 mid-gray image — exactly large enough for the 48px geometry. -/
def gray80Img : WImage := ⟨80, 80, fun _ _ => ⟨100, 100, 100, none⟩⟩

/-- A 1×1 image for watermark-removal witnesses at strength 0. -/
def wmZeroImg : WImage := ⟨1, 1, fun _ _ => ⟨7, 8, 9, some 10⟩⟩

/-- The chroma-key configuration the green-screen backend builds for strength
1/2 and the default hue range and saturation threshold. -/
def cfgC : GreenScreenConfig := mkGSConfig (1 / 2) 35 85 40

/-- A 1×1 image holding one yellow pixel `(R,G,B) = (200,200,0)`: hue 30 (not
green) but with green excess `200 − 100 = 100`. -/
def imgC : Grid RGB := ⟨[[⟨200, 200, 0⟩]]⟩

/-- The 1×1 all-zero mask. -/
def mask0 : Grid ℕ := ⟨[[0]]⟩

/-- A trivially failing AI matte provider. -/
def aiNone : Grid RGB → Option (Grid RGBA) := fun _ => none

/-- A 1×1 RGB image for green-screen witnesses. -/
def imgB : Grid RGB := ⟨[[⟨0, 0, 0⟩]]⟩

/-- 1×1 chroma result with alpha 200, for the alpha-merge witness. -/
def chroma200 : Grid RGBA := ⟨[[⟨1, 2, 3, 200⟩]]⟩

/-- 1×1 AI result with alpha 150, for the alpha-merge witness. -/
def ai150 : Grid RGBA := ⟨[[⟨4, 5, 6, 150⟩]]⟩

/-! ## Helper lemmas -/

theorem pyRound_natCast (n : ℕ) : pyRound (n : ℚ) = n := by
  unfold pyRound
  have h : ⌊(n : ℚ)⌋ = (n : ℤ) := by exact_mod_cast Int.floor_natCast n
  simp [h]

theorem clampByte_natCast_of_le (n : ℕ) (h : n ≤ 255) : clampByte (n : ℤ) = n := by
  unfold clampByte
  omega

theorem removeChannel_strength_zero (a : ℚ) (c : ℕ) (h : c ≤ 255) :
    removeChannel a 0 c = c := by
  unfold removeChannel
  have harg : (c : ℚ) * (1 - 0) + ((c : ℚ) - a * LOGO_VALUE) / (1 - a) * 0 = (c : ℚ) := by
    ring
  rw [harg, pyRound_natCast, clampByte_natCast_of_le c h]

theorem removePixel_strength_zero (wmAlpha : ℚ) (p : Pixel) (hv : ValidPixel p) :
    removePixel wmAlpha 0 p = p := by
  obtain ⟨r, g, b, a⟩ := p
  obtain ⟨h1, h2, h3, h4⟩ := hv
  unfold removePixel
  split
  · rfl
  · simp only [removeChannel_strength_zero _ _ h1, removeChannel_strength_zero _ _ h2,
      removeChannel_strength_zero _ _ h3]
    cases a with
    | none => rfl
    | some v =>
        simp only [Option.map_some']
        rw [removeChannel_strength_zero _ _ (h4 v rfl)]

theorem removeChannel_strength_one (wmAlpha : ℚ) (c : ℕ) :
    removeChannel wmAlpha 1 c = specRecoveredChannel wmAlpha c := by
  unfold removeChannel specRecoveredChannel LOGO_VALUE
  congr 2
  ring

/-! ## Claim theorems: watermark removal

Concrete evaluations below unfold the rational arithmetic of the embedding;
the `Rat` operations that Batteries seals are made semireducible locally so
that `decide` can reduce them. -/

section ClaimTheorems

attribute [local semireducible] Rat.mul Rat.add Rat.sub Rat.inv

/-- C6: every pixel of the targeted square whose alpha-map value is below
0.002 is left byte-identical (all channels, including the alpha channel of an
RGBA image) by the watermark remover, for every removal strength. -/
theorem wm_tiny_alpha_pixel_untouched (alphaMap : ℕ → ℚ) (x y size : ℤ)
    (s : ℚ) (img : WImage) (px py : ℤ)
    (halpha : alphaMap (wmIdx x y size px py) < ALPHA_THRESHOLD) :
    (removeWatermark alphaMap x y size s img).pix px py = img.pix px py := by
  show (if x ≤ px ∧ px < x + size ∧ y ≤ py ∧ py < y + size then
      removePixel (alphaMap (wmIdx x y size px py)) s (img.pix px py)
    else img.pix px py) = img.pix px py
  split
  · unfold removePixel
    exact if_pos halpha
  · rfl

/-- Witness for C6 at a concrete pixel and alpha-map value 0.001. -/
theorem wm_tiny_alpha_pixel_untouched_witness :
    (removeWatermark (fun _ => 1 / 1000) 0 0 1 1 wmWitnessImg).pix 0 0 =
      wmWitnessImg.pix 0 0 :=
  wm_tiny_alpha_pixel_untouched (fun _ => 1 / 1000) 0 0 1 1 wmWitnessImg 0 0 (by decide)

/-- C8: at removal strength 0 the watermark remover is the identity on every
pixel whose channels are valid bytes (RGB channels and the alpha channel of
an RGBA image alike), for every alpha-map. -/
theorem wm_strength_zero_identity (alphaMap : ℕ → ℚ) (x y size : ℤ)
    (img : WImage) (px py : ℤ) (hv : ValidPixel (img.pix px py)) :
    (removeWatermark alphaMap x y size 0 img).pix px py = img.pix px py := by
  show (if x ≤ px ∧ px < x + size ∧ y ≤ py ∧ py < y + size then
      removePixel (alphaMap (wmIdx x y size px py)) 0 (img.pix px py)
    else img.pix px py) = img.pix px py
  split
  · exact removePixel_strength_zero _ _ hv
  · rfl

/-- Witness for C8: a concrete in-square RGBA pixel is untouched at
strength 0. -/
theorem wm_strength_zero_identity_witness :
    (removeWatermark (fun _ => 1 / 2) 0 0 1 0 wmZeroImg).pix 0 0 =
      wmZeroImg.pix 0 0 :=
  wm_strength_zero_identity (fun _ => 1 / 2) 0 0 1 wmZeroImg 0 0
    ⟨by decide, by decide, by decide, by decide⟩

/-- C1 (amended): at strength 1 and for alpha-map values in
`[0.002, 0.99]`, every channel of an in-square pixel (and the alpha channel
of an RGBA pixel) equals the spec's recovered-channel formula
`(watermarked − wm_alpha·255)/(1 − wm_alpha)` rounded and clamped to
`[0,255]`.  (For values below 0.002 the pixel is skipped instead — see the
counterexample.) -/
theorem wm_strength_one_exact_formula (alphaMap : ℕ → ℚ) (x y size : ℤ)
    (img : WImage) (px py : ℤ)
    (hin : x ≤ px ∧ px < x + size ∧ y ≤ py ∧ py < y + size)
    (h1 : ALPHA_THRESHOLD ≤ alphaMap (wmIdx x y size px py))
    (h2 : alphaMap (wmIdx x y size px py) ≤ MAX_ALPHA) :
    (removeWatermark alphaMap x y size 1 img).pix px py =
      ⟨specRecoveredChannel (alphaMap (wmIdx x y size px py)) (img.pix px py).r,
       specRecoveredChannel (alphaMap (wmIdx x y size px py)) (img.pix px py).g,
       specRecoveredChannel (alphaMap (wmIdx x y size px py)) (img.pix px py).b,
       (img.pix px py).a.map
         (specRecoveredChannel (alphaMap (wmIdx x y size px py)))⟩ := by
  show (if x ≤ px ∧ px < x + size ∧ y ≤ py ∧ py < y + size then
      removePixel (alphaMap (wmIdx x y size px py)) 1 (img.pix px py)
    else img.pix px py) = _
  rw [if_pos hin]
  unfold removePixel
  rw [if_neg (not_lt.mpr h1), min_eq_left h2]
  simp only [removeChannel_strength_one]

/-- Witness for C1's amended statement at `wm_alpha = 1/2` on a concrete
RGBA pixel. -/
theorem wm_strength_one_exact_formula_witness :
    (removeWatermark (fun _ => 1 / 2) 0 0 1 1 wmWitnessImg).pix 0 0 =
      ⟨specRecoveredChannel (1 / 2) 0, specRecoveredChannel (1 / 2) 100,
       specRecoveredChannel (1 / 2) 255, some (specRecoveredChannel (1 / 2) 30)⟩ :=
  wm_strength_one_exact_formula (fun _ => 1 / 2) 0 0 1 wmWitnessImg 0 0
    (by decide) (by decide) (by decide)

/-- Counterexample to C1 as stated: at alpha-map value 0.00199 — inside the
claim's range `[0, 0.99]` but below the skip threshold 0.002 — a channel of
value 1 stays 1 under the remover at strength 1, while the claimed formula
gives 0. -/
theorem wm_strength_one_formula_cex :
    (0 : ℚ) ≤ 199 / 100000 ∧ (199 / 100000 : ℚ) ≤ 99 / 100 ∧
    ((removeWatermark (fun _ => 199 / 100000) 0 0 1 1 wmCexImg).pix 0 0).r = 1 ∧
    specRecoveredChannel (199 / 100000) 1 = 0 := by
  decide

/-- C3: in auto mode the geometry is 96px with 64px margins exactly when both
dimensions exceed 1024 and 48px with 32px margins otherwise, and any image
with a dimension smaller than `logo_size + max(margin_right, margin_bottom)`
is passed through with unchanged pixel content and a success result. -/
theorem gemini_auto_geometry_and_small_passthrough (strength : ℚ)
    (alphaMap : ℕ → ℚ) (img : WImage) :
    (geminiConfig .auto img.width img.height =
      if 1024 < img.width ∧ 1024 < img.height then ⟨96, 64, 64⟩
      else ⟨48, 32, 32⟩) ∧
    ∀ mode : GeminiMode,
      (img.width < minProcessSize (geminiConfig mode img.width img.height) ∨
        img.height < minProcessSize (geminiConfig mode img.width img.height)) →
      geminiProcess mode strength alphaMap img = (true, img) := by
  refine ⟨rfl, fun mode hsmall => ?_⟩
  unfold geminiProcess
  rw [if_pos hsmall]

/-- Witness for C3: a 50×50 image (smaller than 48+32) passes through
unchanged with success in auto mode. -/
theorem gemini_small_passthrough_witness :
    geminiProcess .auto 1 (fun _ => 0) smallImg = (true, smallImg) :=
  (gemini_auto_geometry_and_small_passthrough 1 (fun _ => 0) smallImg).2 .auto
    (Or.inl (by decide))

/-- C10: whenever the too-small check does not fire, the computed
bottom-right watermark position satisfies `0 ≤ x`, `0 ≤ y`,
`x + size ≤ width`, `y + size ≤ height`, and every pixel coordinate the
remover touches lies inside the image. -/
theorem wm_position_within_bounds (mode : GeminiMode) (w h : ℤ)
    (hbig : ¬ (w < minProcessSize (geminiConfig mode w h) ∨
      h < minProcessSize (geminiConfig mode w h))) :
    0 ≤ (calculateWatermarkPosition w h (geminiConfig mode w h)).1 ∧
    0 ≤ (calculateWatermarkPosition w h (geminiConfig mode w h)).2 ∧
    (calculateWatermarkPosition w h (geminiConfig mode w h)).1 +
      (geminiConfig mode w h).logo_size ≤ w ∧
    (calculateWatermarkPosition w h (geminiConfig mode w h)).2 +
      (geminiConfig mode w h).logo_size ≤ h ∧
    ∀ row col : ℤ, 0 ≤ row → row < (geminiConfig mode w h).logo_size →
      0 ≤ col → col < (geminiConfig mode w h).logo_size →
      0 ≤ (calculateWatermarkPosition w h (geminiConfig mode w h)).1 + col ∧
      (calculateWatermarkPosition w h (geminiConfig mode w h)).1 + col < w ∧
      0 ≤ (calculateWatermarkPosition w h (geminiConfig mode w h)).2 + row ∧
      (calculateWatermarkPosition w h (geminiConfig mode w h)).2 + row < h := by
  have hc : geminiConfig mode w h = ⟨96, 64, 64⟩ ∨
      geminiConfig mode w h = ⟨48, 32, 32⟩ := by
    cases mode with
    | auto =>
        rw [show geminiConfig GeminiMode.auto w h = detectWatermarkConfig w h from rfl]
        unfold detectWatermarkConfig
        split
        · exact Or.inl rfl
        · exact Or.inr rfl
    | px48 => exact Or.inr rfl
    | px96 => exact Or.inl rfl
  push_neg at hbig
  obtain ⟨hw, hh⟩ := hbig
  rcases hc with hc | hc <;>
    rw [hc] at hw hh ⊢ <;>
    simp only [calculateWatermarkPosition, minProcessSize, max_self] at hw hh ⊢ <;>
    exact ⟨by omega, by omega, by omega, by omega,
      fun row col u1 u2 u3 u4 => by omega⟩

/-- Witness for C10 at a 2000×2000 image in auto mode (96px geometry). -/
theorem wm_position_within_bounds_witness :
    0 ≤ (calculateWatermarkPosition 2000 2000 (geminiConfig .auto 2000 2000)).1 ∧
    0 ≤ (calculateWatermarkPosition 2000 2000 (geminiConfig .auto 2000 2000)).2 ∧
    (calculateWatermarkPosition 2000 2000 (geminiConfig .auto 2000 2000)).1 +
      (geminiConfig .auto 2000 2000).logo_size ≤ 2000 ∧
    (calculateWatermarkPosition 2000 2000 (geminiConfig .auto 2000 2000)).2 +
      (geminiConfig .auto 2000 2000).logo_size ≤ 2000 ∧
    ∀ row col : ℤ, 0 ≤ row → row < (geminiConfig .auto 2000 2000).logo_size →
      0 ≤ col → col < (geminiConfig .auto 2000 2000).logo_size →
      0 ≤ (calculateWatermarkPosition 2000 2000 (geminiConfig .auto 2000 2000)).1 + col ∧
      (calculateWatermarkPosition 2000 2000 (geminiConfig .auto 2000 2000)).1 + col < 2000 ∧
      0 ≤ (calculateWatermarkPosition 2000 2000 (geminiConfig .auto 2000 2000)).2 + row ∧
      (calculateWatermarkPosition 2000 2000 (geminiConfig .auto 2000 2000)).2 + row < 2000 :=
  wm_position_within_bounds .auto 2000 2000 (by decide)

/-- C9 (amended): the strength the watermark backend stores and applies is
`max(0.1, min(1.0, s))`; it equals the configured value exactly on
`[0.1, 1]`, and configured values in `[0, 0.1)` are raised to 0.1. -/
theorem removal_strength_clamped_to_range (s : ℚ) :
    (1 / 10 ≤ s → s ≤ 1 → baseStrength s = s) ∧
    (0 ≤ s → s < 1 / 10 → baseStrength s = 1 / 10) ∧
    ∀ (mode : GeminiMode) (alphaMap : ℕ → ℚ) (img : WImage),
      geminiProcessB mode s alphaMap img =
        geminiProcess mode (baseStrength s) alphaMap img := by
  refine ⟨fun hlo hhi => ?_, fun hlo hhi => ?_, fun _ _ _ => rfl⟩
  · unfold baseStrength
    rw [min_eq_right hhi, max_eq_right hlo]
  · unfold baseStrength
    rw [min_eq_right (le_of_lt (lt_of_lt_of_le hhi (by norm_num))),
      max_eq_left (le_of_lt hhi)]

/-- Witness for C9's amended statement at the in-range strength 1/2. -/
theorem removal_strength_clamped_to_range_witness : baseStrength (1 / 2) = 1 / 2 :=
  (removal_strength_clamped_to_range (1 / 2)).1 (by norm_num) (by norm_num)

/-- Counterexample to C9 as stated: the configured strength 0 lies in the
claimed range `[0, 1]`, but the backend applies 0.1, and processing at
configured strength 0 visibly alters an in-square pixel (so the applied
strength is not 0). -/
theorem removal_strength_zero_not_applied_cex :
    (0 : ℚ) ≤ 0 ∧ (0 : ℚ) ≤ 1 ∧ baseStrength 0 ≠ 0 ∧
    ((geminiProcessB .auto 0 (fun _ => 1 / 2) gray80Img).2).pix 0 0 ≠
      gray80Img.pix 0 0 := by
  decide

/-! ## Claim theorems: green-screen pipeline -/

theorem clipFloor_natCast_of_le (n : ℕ) (h : n ≤ 255) : clipFloor (n : ℚ) = n := by
  unfold clipFloor
  have h0 : (0 : ℚ) ≤ (n : ℚ) := Nat.cast_nonneg n
  have h255 : (n : ℚ) ≤ 255 := by exact_mod_cast h
  rw [max_eq_right h0, min_eq_right h255, Int.floor_natCast]
  exact Int.toNat_natCast n

theorem despill_newG_eq (s : ℚ) (r g b : ℕ) :
    clipFloor (if 0 < (g : ℚ) - ((r : ℚ) + (b : ℚ)) / 2 then
        (g : ℚ) - ((g : ℚ) - ((r : ℚ) + (b : ℚ)) / 2) * s
      else (g : ℚ)) =
    clipFloor ((g : ℚ) - max ((g : ℚ) - ((r : ℚ) + (b : ℚ)) / 2) 0 * s) := by
  by_cases h : 0 < (g : ℚ) - ((r : ℚ) + (b : ℚ)) / 2
  · rw [if_pos h, max_eq_left (le_of_lt h)]
  · rw [if_neg h, max_eq_right (not_lt.mp h)]
    norm_num

/-- C4: the despill corrector computes `rb_avg = (R+B)/2`,
`excess = max(G − rb_avg, 0)`, replaces G with `G − excess·despill_strength`
clamped to `[0,255]`, leaves R and B unchanged, and leaves pixels with
non-positive excess byte-identical; the backend's per-pixel despill computes
the same green value; and the spec's two concrete examples hold. -/
theorem despill_corrector_formula (s : ℚ) (p : RGB) :
    (despillPixel s p).r = p.r ∧ (despillPixel s p).b = p.b ∧
    (despillPixel s p).g =
      clipFloor ((p.g : ℚ) - max ((p.g : ℚ) - ((p.r : ℚ) + (p.b : ℚ)) / 2) 0 * s) ∧
    ((p.g : ℚ) - ((p.r : ℚ) + (p.b : ℚ)) / 2 ≤ 0 → p.g ≤ 255 → despillPixel s p = p) ∧
    (∀ al : ℕ, despillRGBAPixel s ⟨p.r, p.g, p.b, al⟩ =
      ⟨p.r, (despillPixel s p).g, p.b, al⟩) ∧
    despillPixel 1 ⟨50, 200, 50⟩ = ⟨50, 50, 50⟩ ∧
    despillPixel 0 ⟨50, 200, 50⟩ = ⟨50, 200, 50⟩ := by
  obtain ⟨r, g, b⟩ := p
  refine ⟨rfl, rfl, despill_newG_eq s r g b, fun hex hbyte => ?_, fun al => ?_,
    by decide, by decide⟩
  · show RGB.mk r (clipFloor (if 0 < (g : ℚ) - ((r : ℚ) + (b : ℚ)) / 2 then _ else _)) b = _
    rw [if_neg (not_lt.mpr hex), clipFloor_natCast_of_le g hbyte]
  · show RGBA.mk r (clipFloor ((g : ℚ) - max ((g : ℚ) - ((r : ℚ) + (b : ℚ)) / 2) 0 * s)) b al =
      RGBA.mk r (clipFloor (if 0 < (g : ℚ) - ((r : ℚ) + (b : ℚ)) / 2 then
        (g : ℚ) - ((g : ℚ) - ((r : ℚ) + (b : ℚ)) / 2) * s else (g : ℚ))) b al
    rw [despill_newG_eq s r g b]

/-- Witness for C4: a non-green pixel (excess ≤ 0) is byte-identical under
the despill corrector. -/
theorem despill_corrector_formula_witness :
    despillPixel (1 / 2) ⟨100, 40, 100⟩ = ⟨100, 40, 100⟩ :=
  (despill_corrector_formula (1 / 2) ⟨100, 40, 100⟩).2.2.2.1 (by norm_num) (by norm_num)

theorem Grid.get_zipG {α β γ : Type} (f : α → β → γ) (g₁ : Grid α) (g₂ : Grid β)
    (y x : ℕ) (d₁ : α) (d₂ : β) (d : γ)
    (hy₁ : y < g₁.data.length) (hy₂ : y < g₂.data.length)
    (hx₁ : x < (g₁.data.getD y []).length) (hx₂ : x < (g₂.data.getD y []).length) :
    (Grid.zipG f g₁ g₂).get y x d = f (g₁.get y x d₁) (g₂.get y x d₂) := by
  unfold Grid.zipG Grid.get
  have hx₁' : x < g₁.data[y].length := by
    rw [← List.getD_eq_getElem g₁.data [] hy₁]
    exact hx₁
  have hx₂' : x < g₂.data[y].length := by
    rw [← List.getD_eq_getElem g₂.data [] hy₂]
    exact hx₂
  have hz : y < (List.zipWith (List.zipWith f) g₁.data g₂.data).length := by
    rw [List.length_zipWith]
    omega
  have hzx : x < (List.zipWith f g₁.data[y] g₂.data[y]).length := by
    rw [List.length_zipWith]
    omega
  rw [List.getD_eq_getElem _ _ hz, List.getElem_zipWith,
    List.getD_eq_getElem _ _ hzx, List.getElem_zipWith,
    List.getD_eq_getElem g₁.data [] hy₁, List.getD_eq_getElem g₂.data [] hy₂,
    List.getD_eq_getElem _ _ hx₁', List.getD_eq_getElem _ _ hx₂']

/-- C5: in the ai-enhanced and hybrid modes the merged image's alpha at every
in-bounds pixel is the minimum of the chroma-key alpha and the AI alpha
(`min 200 150 = 150`, never an average), and its RGB channels come from the
AI result; both modes merge with `_merge_alpha_channels` exactly. -/
theorem merged_alpha_is_min (c a : Grid RGBA) (y x : ℕ)
    (hyc : y < c.data.length) (hya : y < a.data.length)
    (hxc : x < (c.data.getD y []).length) (hxa : x < (a.data.getD y []).length) :
    (mergeAlphaChannels c a).get y x rgba0 =
      ⟨(a.get y x rgba0).r, (a.get y x rgba0).g, (a.get y x rgba0).b,
        min (c.get y x rgba0).a (a.get y x rgba0).a⟩ ∧
    min 200 150 = 150 ∧
    (∀ (s : ℚ) (hm hM sm : ℕ) (ai : Grid RGB → Option (Grid RGBA))
        (img : Grid RGB) (res : Grid RGBA), ai img = some res →
      gsBackendProcess .aiEnhanced s hm hM sm ai img =
        some (mergeAlphaChannels (processImage (mkGSConfig s hm hM sm) img) res)) ∧
    (∀ (s : ℚ) (hm hM sm : ℕ) (ai : Grid RGB → Option (Grid RGBA))
        (img : Grid RGB) (res : Grid RGBA), ai img = some res →
      gsBackendProcess .hybrid s hm hM sm ai img =
        some (applyDespillB (baseStrength s)
          (mergeAlphaChannels (processImage (mkGSConfig s hm hM sm) img) res))) := by
  refine ⟨?_, rfl, fun s hm hM sm ai img res hai => ?_, fun s hm hM sm ai img res hai => ?_⟩
  · exact Grid.get_zipG _ c a y x rgba0 rgba0 rgba0 hyc hya hxc hxa
  · unfold gsBackendProcess
    rw [hai]
  · unfold gsBackendProcess
    rw [hai]

/-- Witness for C5: merging a chroma pixel with alpha 200 and an AI pixel
with alpha 150 yields the AI RGB with alpha 150. -/
theorem merged_alpha_is_min_witness :
    (mergeAlphaChannels chroma200 ai150).get 0 0 rgba0 = ⟨4, 5, 6, 150⟩ := by
  rw [(merged_alpha_is_min chroma200 ai150 0 0 (by decide) (by decide) (by decide)
    (by decide)).1]
  decide

/-- C7: in the ai-enhanced and hybrid modes, a failing AI matte provider
makes processing of the image fail (no output image); there is no fallback to
the chroma-only result. -/
theorem ai_failure_is_processing_failure (mode : GSMode) (s : ℚ) (hm hM sm : ℕ)
    (ai : Grid RGB → Option (Grid RGBA)) (img : Grid RGB)
    (hmode : mode = GSMode.aiEnhanced ∨ mode = GSMode.hybrid)
    (hai : ai img = none) :
    gsBackendProcess mode s hm hM sm ai img = none := by
  rcases hmode with h | h <;> subst h <;> unfold gsBackendProcess <;> rw [hai]

/-- Witness for C7: the failing provider makes ai-enhanced processing of a
concrete image fail. -/
theorem ai_failure_is_processing_failure_witness :
    gsBackendProcess .aiEnhanced 1 35 85 40 aiNone imgB = none :=
  ai_failure_is_processing_failure .aiEnhanced 1 35 85 40 aiNone imgB (Or.inl rfl) rfl

/-- C2 (amended): in chroma-only mode the output is segmentation, mask
refinement, inversion to foreground alpha — but the despill corrector runs
twice: once inside the chroma-key stage on the colour image (at the raw
configured strength) before compositing, and once more by the backend on the
masked composite (at the clamped strength); no AI call is made (the result
does not depend on the provider `ai`). -/
theorem chroma_only_double_despill (s : ℚ) (hm hM sm : ℕ)
    (ai : Grid RGB → Option (Grid RGBA)) (img : Grid RGB) :
    gsBackendProcess .chromaOnly s hm hM sm ai img =
      some (applyDespillB (baseStrength s)
        (compositeRGBA (despillGreen s img)
          (invertMask (refineMask (mkGSConfig s hm hM sm)
            (createGreenMask (mkGSConfig s hm hM sm) img))))) := rfl

theorem gsStage_mask : createGreenMask cfgC imgC = mask0 := by decide

theorem gsStage_close : closeEllipse5 mask0 = mask0 := by decide

theorem gsStage_open : openEllipse3 mask0 = mask0 := by decide

theorem gsStage_erode : erodeStep cfgC mask0 = mask0 := by decide

theorem gsStage_blur : gaussianStep cfgC mask0 = mask0 := by decide

theorem gsStage_refine : refineMask cfgC (createGreenMask cfgC imgC) = mask0 := by
  rw [gsStage_mask]
  unfold refineMask
  rw [gsStage_close, gsStage_open, gsStage_erode, gsStage_blur]

theorem gsStage_chroma :
    applyChromaKeyP cfgC imgC none = (⟨[[⟨200, 150, 0⟩]]⟩, ⟨[[255]]⟩) := by
  unfold applyChromaKeyP
  rw [gsStage_refine]
  decide

theorem gsStage_processImage : processImage cfgC imgC = ⟨[[⟨200, 150, 0, 255⟩]]⟩ := by
  unfold processImage
  rw [gsStage_chroma]
  decide

theorem gsStage_backendDespill :
    applyDespillB (baseStrength (1 / 2)) ⟨[[⟨200, 150, 0, 255⟩]]⟩ =
      ⟨[[⟨200, 125, 0, 255⟩]]⟩ := by
  decide

theorem gsStage_specSide :
    specChromaOnly cfgC (baseStrength (1 / 2)) imgC = ⟨[[⟨200, 150, 0, 255⟩]]⟩ := by
  unfold specChromaOnly
  rw [gsStage_refine]
  decide

/-- Counterexample to C2 as stated: on a 1×1 yellow image (no green-mask
pixel) at configured strength 1/2, the chroma-only pipeline outputs green
value 125 — despilled twice — while segmentation → refinement → inversion →
despill-corrector-once on the masked composite gives green value 150. -/
theorem chroma_only_single_despill_cex :
    gsBackendProcess .chromaOnly (1 / 2) 35 85 40 aiNone imgC ≠
      some (specChromaOnly cfgC (baseStrength (1 / 2)) imgC) := by
  have h1 : gsBackendProcess .chromaOnly (1 / 2) 35 85 40 aiNone imgC =
      some ⟨[[⟨200, 125, 0, 255⟩]]⟩ := by
    show some (applyDespillB (baseStrength (1 / 2)) (processImage cfgC imgC)) = _
    rw [gsStage_processImage, gsStage_backendDespill]
  rw [h1, gsStage_specSide]
  decide

end ClaimTheorems
